import Mathlib

/-!
Shallow embedding of the portfolio-optimization and time-series forecasting
core of the DMAC_2025-2 repository, and proofs about it.

Conventions of the embedding:
* Python/numpy floats are modelled as rationals (`ℚ`); where a float
  operation can produce a non-finite value (inf/NaN), the embedding returns
  `Option ℚ` with `none` standing for "non-finite".
* External library calls (`scipy.optimize.minimize`, `statsmodels` ARIMA and
  SARIMAX fits, `pmdarima.auto_arima`, `np.sqrt`, Python `round`) are passed
  in as function parameters; theorems state explicitly which contracts of the
  external routine they assume.
* pandas timestamps are modelled as integers; one day = 1.
* Fallible code (a Python `try ... except` returning `(None, msg)` or `None`)
  is modelled with `Option`/`Except`.
-/

namespace DMAC

/-! ## Shared numeric helpers -/

/-- Mean of a list of rationals (`np.mean` / pandas `.mean()`).  On an empty
list rational division by zero gives `0` where numpy gives NaN; the claims
never evaluate the empty case through this function. -/
def lmean (xs : List ℚ) : ℚ := xs.sum / xs.length

/-- `np.sum(a * b)` over two equal-length vectors (numpy elementwise product
then sum; `zip` truncates to the common length, matching the use sites where
lengths agree). -/
def dotQ (xs ys : List ℚ) : ℚ := ((xs.zip ys).map fun p => p.1 * p.2).sum

/-- `np.dot(m, v)` for a matrix given as a list of rows. -/
def matVec (m : List (List ℚ)) (v : List ℚ) : List ℚ := m.map fun row => dotQ row v

/-- `np.dot(w.T, np.dot(m, w))`. -/
def quadForm (m : List (List ℚ)) (w : List ℚ) : ℚ := dotQ w (matVec m w)

/-- Float division as numpy performs it, with `none` for the non-finite
results: `x / 0` is `±inf` (or NaN when `x = 0`), every other quotient is
finite.  No exception is raised either way. -/
def np_div (a b : ℚ) : Option ℚ := if b = 0 then none else some (a / b)

/-- Evaluates to the list of values when every entry is finite, `none` when
any entry is non-finite. -/
def allSome : List (Option ℚ) → Option (List ℚ)
  | [] => some []
  | none :: _ => none
  | some x :: rest => (allSome rest).map (x :: ·)

/-- `np.mean` over possibly non-finite terms: any inf/NaN term (after the
`np.abs` at the use sites all infinities are positive) makes the mean
non-finite, and the mean of an empty array is NaN. -/
def np_mean_opt (l : List (Option ℚ)) : Option ℚ :=
  match allSome l with
  | none => none
  | some xs => if xs.isEmpty then none else some (lmean xs)

/-- `sklearn.metrics.mean_squared_error` on equal-length nonempty arrays. -/
def mean_squared_error (y ypred : List ℚ) : ℚ :=
  lmean ((y.zip ypred).map fun p => (p.1 - p.2) ^ 2)

/-- `sklearn.metrics.mean_absolute_error` on equal-length nonempty arrays. -/
def mean_absolute_error (y ypred : List ℚ) : ℚ :=
  lmean ((y.zip ypred).map fun p => |p.1 - p.2|)

/-- `np.mean(np.abs((test - test_predictions) / test)) * 100` — the MAPE
expression of `run_arima_forecast` (src/Scripts/StockApp/analysis_logic.py
line 109) and of `fit_sarimax` (sarimax.py line 143).  Dividing by a zero
actual makes the aggregate non-finite (`none`); no point is excluded and no
exception is raised. -/
def np_mape (test preds : List ℚ) : Option ℚ :=
  (np_mean_opt ((test.zip preds).map fun p => (np_div (p.1 - p.2) p.1).map abs)).map
    (· * 100)

/-- Modelled from the spec: the MAPE aggregate the specification describes,
in which a point whose actual value is exactly 0 is excluded and the mean is
taken over the remaining points only.  Used solely to compare the
specification's words with `np_mape`, the expression the code computes. -/
def mape_excluding_zeros (test preds : List ℚ) : Option ℚ :=
  let pts := (test.zip preds).filter fun p => decide (p.1 ≠ 0)
  if pts.isEmpty then none
  else some (lmean (pts.map fun p => |(p.1 - p.2) / p.1|) * 100)

/-- `pd.date_range(start, periods, freq)` for a plain fixed-step frequency:
`start, start + step, ...`, `periods` entries. -/
def date_range (start : Int) (periods : ℕ) (step : Int) : List Int :=
  (List.range periods).map fun (k : ℕ) => start + (k : Int) * step

/-! ## portfolio_logic.py -/

/-- Tail step of `pct_change`: pairs each row with its predecessor. -/
def pctAux : Int × ℚ → List (Int × ℚ) → List (Int × ℚ)
  | _, [] => []
  | prev, cur :: rest => (cur.1, cur.2 / prev.2 - 1) :: pctAux cur rest

/-- `df['Close'].pct_change().dropna()` on one asset's (timestamp, close)
rows: the period-over-period percentage change, with the first (undefined)
observation dropped.  A zero previous close gives `±inf` in pandas (the row
is kept by `dropna`); in `ℚ` the value decays to `-1` but the row structure,
which the claims are about, is identical. -/
def pct_change_dropna : List (Int × ℚ) → List (Int × ℚ)
  | [] => []
  | x :: xs => pctAux x xs

/-- Timestamps of one asset's return series. -/
def retDates (s : List (Int × ℚ)) : List Int := (pct_change_dropna s).map Prod.fst

/-- Row index of `pd.DataFrame(returns_data).dropna()` in `calculate_returns`:
for sorted duplicate-free per-asset indexes, pandas aligns the columns on the
union of the indexes (filling NaN) and `dropna()` then keeps exactly the
timestamps present in every asset's return series, in index order. -/
def joinDates : List (List (Int × ℚ)) → List Int
  | [] => []
  | a :: rest => (retDates a).filter fun t => rest.all fun b => (retDates b).contains t

/-- `calculate_returns(prices_dict)` (portfolio_logic.py lines 8–27): one row
per aligned timestamp, one return value per asset. -/
def calculate_returns (prices : List (List (Int × ℚ))) : List (Int × List ℚ) :=
  (joinDates prices).map fun t =>
    (t, prices.map fun s => (((pct_change_dropna s).find? fun p => p.1 == t).getD (t, 0)).2)

/-- `portfolio_stats(weights, mean_returns, cov_matrix, rf_rate)`
(portfolio_logic.py lines 30–41).  `np.sqrt` is passed in as `sqrtQ`. -/
def portfolio_stats (sqrtQ : ℚ → ℚ) (weights mean_returns : List ℚ)
    (cov_matrix : List (List ℚ)) (rf_rate : ℚ) : ℚ × ℚ × ℚ :=
  let portfolio_return := dotQ mean_returns weights * 252
  let portfolio_std := sqrtQ (quadForm cov_matrix weights) * sqrtQ 252
  let sharpe_ratio :=
    if portfolio_std > 0 then (portfolio_return - rf_rate) / portfolio_std else 0
  (portfolio_return, portfolio_std, sharpe_ratio)

/-- `negative_sharpe` (portfolio_logic.py lines 44–46). -/
def negative_sharpe (sqrtQ : ℚ → ℚ) (weights mean_returns : List ℚ)
    (cov_matrix : List (List ℚ)) (rf_rate : ℚ) : ℚ :=
  -(portfolio_stats sqrtQ weights mean_returns cov_matrix rf_rate).2.2

/-- What `scipy.optimize.minimize` returns: `success`, the iterate `x`, and a
diagnostic `message`. -/
structure MinimizeResult where
  success : Bool
  x : List ℚ
  message : String

/-- The shape of `scipy.optimize.minimize(fun, x0, method='SLSQP', bounds=…,
constraints=…)` as `optimize_portfolio` calls it: objective, initial guess,
box bounds, and the single equality-constraint function. -/
def Slsqp : Type :=
  (List ℚ → ℚ) → List ℚ → List (ℚ × ℚ) → (List ℚ → ℚ) → MinimizeResult

/-- `optimize_portfolio(mean_returns, cov_matrix, rf_rate)`
(portfolio_logic.py lines 49–73): bounds `[0,1]` per asset, equality
constraint `sum(x) - 1 = 0`, initial guess `1/N` per asset; raises
(`Except.error`) when the solver reports failure. -/
def optimize_portfolio (solver : Slsqp) (sqrtQ : ℚ → ℚ) (mean_returns : List ℚ)
    (cov_matrix : List (List ℚ)) (rf_rate : ℚ) : Except String (List ℚ) :=
  let num_assets := mean_returns.length
  let bounds := List.replicate num_assets ((0 : ℚ), (1 : ℚ))
  let initial_guess := List.replicate num_assets ((1 : ℚ) / (num_assets : ℚ))
  let result := solver
    (fun w => negative_sharpe sqrtQ w mean_returns cov_matrix rf_rate)
    initial_guess bounds (fun x => x.sum - 1)
  if result.success then Except.ok result.x
  else Except.error ("Optimization failed: " ++ result.message)

/-- `generate_random_portfolios` (portfolio_logic.py lines 76–98); the
unseeded `np.random.random` draws are passed in as `randWeights`.  Each entry
is `(volatility, return, sharpe)`, matching rows 0, 1, 2 of `results`. -/
def generate_random_portfolios (sqrtQ : ℚ → ℚ) (randWeights : ℕ → List ℚ)
    (mean_returns : List ℚ) (cov_matrix : List (List ℚ)) (rf_rate : ℚ)
    (num_portfolios : ℕ) : List (ℚ × ℚ × ℚ) :=
  (List.range num_portfolios).map fun i =>
    let w := randWeights i
    let weights := w.map (· / w.sum)
    let s := portfolio_stats sqrtQ weights mean_returns cov_matrix rf_rate
    (s.2.1, s.1, s.2.2)

/-- Column means of the aligned return rows (`returns_df.mean().values`). -/
def columnMeans (nCols : ℕ) (rows : List (Int × List ℚ)) : List ℚ :=
  (List.range nCols).map fun j => lmean (rows.map fun r => r.2.getD j 0)

/-- Sample covariance matrix (`returns_df.cov().values`, `ddof = 1`).  With
fewer than two rows pandas gives NaN entries; in `ℚ` the division decays to
`0`/a finite value — no claim evaluates that case. -/
def sampleCov (nCols : ℕ) (rows : List (Int × List ℚ)) : List (List ℚ) :=
  let mu := columnMeans nCols rows
  (List.range nCols).map fun i =>
    (List.range nCols).map fun j =>
      ((rows.map fun r =>
        (r.2.getD i 0 - mu.getD i 0) * (r.2.getD j 0 - mu.getD j 0)).sum) /
        ((rows.length : ℚ) - 1)

/-- The result dict of `run_portfolio_optimization`. -/
structure OptResult where
  optimal_weights : List ℚ
  optimal_return : ℚ
  optimal_std : ℚ
  optimal_sharpe : ℚ
  random_portfolios : List (ℚ × ℚ × ℚ)
  asset_stats : List (String × ℚ × ℚ)
  mean_returns : List ℚ
  cov_matrix : List (List ℚ)
  rf_rate : ℚ

/-- `run_portfolio_optimization(current_data, tickers, rf_rate)`
(portfolio_logic.py lines 101–167).  Returns `(result, None)` or
`(None, message)` in the source; here `Except String OptResult`. -/
def run_portfolio_optimization (solver : Slsqp) (sqrtQ : ℚ → ℚ)
    (randWeights : ℕ → List ℚ) (current_data : List (List (Int × ℚ)))
    (tickers : List String) (rf_rate : ℚ) : Except String OptResult :=
  if tickers.length < 2 then
    Except.error "Se necesitan al menos 2 tickers para optimización de cartera"
  else
    let returns_df := calculate_returns current_data
    if returns_df.isEmpty then
      Except.error "No hay suficientes datos para calcular retornos"
    else
      let n := current_data.length
      let mean_returns := columnMeans n returns_df
      let cov_matrix := sampleCov n returns_df
      match optimize_portfolio solver sqrtQ mean_returns cov_matrix rf_rate with
      | Except.error msg => Except.error ("Error en optimización: " ++ msg)
      | Except.ok optimal_weights =>
        let s := portfolio_stats sqrtQ optimal_weights mean_returns cov_matrix rf_rate
        let random_portfolios :=
          generate_random_portfolios sqrtQ randWeights mean_returns cov_matrix rf_rate 5000
        let asset_stats := tickers.enum.map fun q =>
          (q.2, mean_returns.getD q.1 0 * 252,
            sqrtQ ((cov_matrix.getD q.1 []).getD q.1 0) * sqrtQ 252)
        Except.ok
          { optimal_weights, optimal_return := s.1, optimal_std := s.2.1,
            optimal_sharpe := s.2.2, random_portfolios, asset_stats,
            mean_returns, cov_matrix, rf_rate }

/-! ## analysis_logic.py -/

/-- What a fitted statsmodels ARIMA result exposes to `run_arima_forecast`:
`get_forecast(steps).predicted_mean`, the two columns of
`conf_int(alpha=0.05)` (95% interval), and `forecast(steps)` — statsmodels
returns the same mean path for both, so one `predicted_mean` stands for
both calls. -/
structure FittedModel where
  predicted_mean : ℕ → List ℚ
  conf_lower : ℕ → List ℚ
  conf_upper : ℕ → List ℚ

/-- The statsmodels ARIMA surface the module uses: `ARIMA(data, order).fit()`
observed through `.aic` (grid search; `none` = the fit raised) and through
the fitted forecasting interface (`none` = the fit raised). -/
structure ArimaLib where
  fitAic : List ℚ → ℕ × ℕ × ℕ → Option ℚ
  fitModel : List ℚ → ℕ × ℕ × ℕ → Option FittedModel

/-- The `(p, d, q)` enumeration order of the three nested loops of
`_auto_arima_grid_search` (analysis_logic.py lines 22–24). -/
def gridCombos (max_p max_d max_q : ℕ) : List (ℕ × ℕ × ℕ) :=
  (List.range (max_p + 1)).flatMap fun p =>
    (List.range (max_d + 1)).flatMap fun d =>
      (List.range (max_q + 1)).map fun q => (p, d, q)

/-- One iteration of the grid-search loop body: skip `(0,0,0)`, skip a
combination whose fit raised, keep the incumbent unless the new AIC is
strictly lower (`fitted.aic < best_aic`, with `best_aic` starting at
`np.inf`, so the first success always replaces the empty incumbent). -/
def gridStep (fitAic : ℕ × ℕ × ℕ → Option ℚ) (acc : Option (ℚ × (ℕ × ℕ × ℕ)))
    (c : ℕ × ℕ × ℕ) : Option (ℚ × (ℕ × ℕ × ℕ)) :=
  if c = (0, 0, 0) then acc
  else
    match fitAic c with
    | none => acc
    | some a =>
      match acc with
      | none => some (a, c)
      | some (b, c0) => if a < b then some (a, c) else some (b, c0)

/-- `_auto_arima_grid_search(train_data, max_p=3, max_d=2, max_q=3)`
(analysis_logic.py lines 15–40): best (lowest-AIC) successfully fit
combination, or the fixed fallback `(1, 1, 1)` when none fit. -/
def auto_arima_grid_search (lib : ArimaLib) (train_data : List ℚ)
    (max_p : ℕ := 3) (max_d : ℕ := 2) (max_q : ℕ := 3) : ℕ × ℕ × ℕ :=
  match (gridCombos max_p max_d max_q).foldl (gridStep (lib.fitAic train_data)) none with
  | some bo => bo.2
  | none => (1, 1, 1)

/-- `int(len(close_prices) * 0.8)` (analysis_logic.py line 67).  The float
product `n * 0.8` rounds to a value whose truncation equals `⌊4n/5⌋` for
every list length arising here. -/
def train_size_of (n : ℕ) : ℕ := 4 * n / 5

/-- The order-selection block of `run_arima_forecast` (analysis_logic.py
lines 70–83): `pmdarima.auto_arima` when available (falling back to the grid
search if it raises, `none` here), else the grid search; a manual order when
`is_auto` is false. -/
def selected_order (lib : ArimaLib) (auto_arima : List ℚ → Option (ℕ × ℕ × ℕ))
    (pmdarima_available : Bool) (train : List ℚ) (is_auto : Bool)
    (manual_order : ℕ × ℕ × ℕ) : ℕ × ℕ × ℕ :=
  if is_auto then
    if pmdarima_available then
      match auto_arima train with
      | some o => o
      | none => auto_arima_grid_search lib train
    else auto_arima_grid_search lib train
  else manual_order

/-- The `prediction_data` dict of `run_arima_forecast` (analysis_logic.py
lines 121–128).  `mape` is doubly optional: the outer `Option` is the
"test slice empty" `None` of line 104, the inner one is finiteness of the
numpy float. -/
structure PredictionData where
  forecast : List ℚ
  dates : List Int
  order : ℕ × ℕ × ℕ
  rmse : Option ℚ
  mae : Option ℚ
  mape : Option (Option ℚ)
  rmse_percent : Option ℚ
  mae_percent : Option ℚ
  lower_bound : List ℚ
  upper_bound : List ℚ
  residuals : Option (List ℚ)
  test_actual : Option (List ℚ)
  test_predicted : Option (List ℚ)
deriving DecidableEq

/-- `run_arima_forecast(df, horizon, freq_str, is_auto, manual_order)`
(analysis_logic.py lines 59–134).  `freq_step` models the fixed step of
`freq_str`; `none` models the `(None, error)` return of the
`except` clause (reached when the final ARIMA fit raises, or when
`df.index[-1]` is taken on an empty frame). -/
def run_arima_forecast (lib : ArimaLib) (sqrtQ : ℚ → ℚ)
    (pmdarima_available : Bool) (auto_arima : List ℚ → Option (ℕ × ℕ × ℕ))
    (df : List (Int × ℚ)) (horizon : ℕ) (freq_step : Int) (is_auto : Bool)
    (manual_order : ℕ × ℕ × ℕ) : Option PredictionData :=
  let close_prices := df.map Prod.snd
  let train_size := train_size_of close_prices.length
  let train := close_prices.take train_size
  let test := close_prices.drop train_size
  let order := selected_order lib auto_arima pmdarima_available train is_auto manual_order
  match lib.fitModel close_prices order with
  | none => none
  | some final_fit =>
    match df.getLast? with
    | none => none
    | some last =>
      let forecast := final_fit.predicted_mean horizon
      let lower_bound := final_fit.conf_lower horizon
      let upper_bound := final_fit.conf_upper horizon
      let future_dates := (date_range last.1 (horizon + 1) freq_step).drop 1
      if test.isEmpty then
        some { forecast, dates := future_dates, order, rmse := none, mae := none,
               mape := none, rmse_percent := none, mae_percent := none,
               lower_bound, upper_bound, residuals := none, test_actual := none,
               test_predicted := none }
      else
        let test_predictions := final_fit.predicted_mean test.length
        let rmse := sqrtQ (mean_squared_error test test_predictions)
        let mae := mean_absolute_error test test_predictions
        let mape := np_mape test test_predictions
        let mean_price := lmean test
        some { forecast, dates := future_dates, order,
               rmse := some rmse, mae := some mae, mape := some mape,
               rmse_percent := some (rmse / mean_price * 100),
               mae_percent := some (mae / mean_price * 100),
               lower_bound, upper_bound,
               residuals := some (List.zipWith (fun a b => a - b) test test_predictions),
               test_actual := some test, test_predicted := some test_predictions }

/-! ## beta-test/backend/api/sarimax.py -/

/-- Insertion step for sorting rows by timestamp. -/
def insertByDate (x : Int × ℚ) : List (Int × ℚ) → List (Int × ℚ)
  | [] => [x]
  | y :: ys => if x.1 ≤ y.1 then x :: y :: ys else y :: insertByDate x ys

/-- `df.set_index('date').sort_index()`: rows sorted by timestamp (the
claims' inputs have duplicate-free timestamps, where every sort agrees). -/
def sort_index : List (Int × ℚ) → List (Int × ℚ)
  | [] => []
  | x :: xs => insertByDate x (sort_index xs)

/-- `pd.infer_freq` followed by the `'D'` default (sarimax.py lines 40–42):
the common positive step of consecutive timestamps when there is one,
otherwise one day. -/
def inferStep (dates : List Int) : Int :=
  match dates with
  | [] => 1
  | d :: rest =>
    match List.zipWith (fun a b => a - b) rest (d :: rest) with
    | [] => 1
    | x :: xs => if 0 < x ∧ xs.all (· == x) then x else 1

/-- `exog_raw.shift(1).dropna()` (sarimax.py line 64): values move down one
row position (row at timestamp `tᵢ` now carries the value from `tᵢ₋₁`), the
first row becomes NaN and is dropped. -/
def shiftOne (l : List (Int × ℚ)) : List (Int × ℚ) :=
  List.zipWith (fun cur prev => (cur.1, prev.2)) (l.drop 1) l

/-- What a fitted `SARIMAX(...).fit()` result exposes to `fit_sarimax`:
`get_forecast(steps, exog)` mean and 95% interval columns,
`predict(start, end, exog)`, and `aic`.  Exogenous rows are modelled with a
single regressor column. -/
structure SarimaxResults where
  forecastMean : ℕ → Option (List (Int × ℚ)) → List ℚ
  confLower : ℕ → Option (List (Int × ℚ)) → List ℚ
  confUpper : ℕ → Option (List (Int × ℚ)) → List ℚ
  predictInSample : ℕ → ℕ → Option (List (Int × ℚ)) → List ℚ
  aic : ℚ

/-- The external surface `fit_sarimax` calls: the SARIMAX fit (`none` = the
fit raised), `pmdarima.auto_arima` when importable (`none` at the outer
level = not importable; `none` from the inner call = it raised), and Python's
float `round`. -/
structure SarimaxLib where
  fit : List (Int × ℚ) → Option (List (Int × ℚ)) → ℕ × ℕ × ℕ → ℕ × ℕ × ℕ × ℕ →
    Option SarimaxResults
  autoArima : Option (List (Int × ℚ) → Option (List (Int × ℚ)) →
    Option ((ℕ × ℕ × ℕ) × (ℕ × ℕ × ℕ × ℕ)))
  pyRound : ℚ → ℕ → ℚ

/-- The exogenous-preparation block of `fit_sarimax` (sarimax.py lines
46–87), on the already sorted target frame `df`: yields the (possibly
realigned) target series, the exogenous frame passed to the fit, and the
constant future exogenous frame.  `none` models the `IndexError` of
`series.index[-1]` when the aligned series is empty.  Membership filters
model `Index.intersection` + `.loc` on sorted duplicate-free indexes. -/
def prepare_exog (df : List (Int × ℚ)) (exog_data : Option (List (Int × ℚ)))
    (forecast_steps : ℕ) (freq : Int) :
    Option (List (Int × ℚ) × Option (List (Int × ℚ)) × Option (List (Int × ℚ))) :=
  match exog_data with
  | none => some (df, none, none)
  | some e =>
    if e.isEmpty then some (df, none, none)
    else
      let exog_raw := sort_index e
      let common_index := (df.map Prod.fst).filter fun t =>
        (exog_raw.map Prod.fst).contains t
      if common_index.length < 10 then some (df, none, none)
      else
        let exog_shifted := shiftOne exog_raw
        let series2 := df.filter fun p => (exog_shifted.map Prod.fst).contains p.1
        let exog_df := exog_shifted.filter fun p => (df.map Prod.fst).contains p.1
        match series2.getLast? with
        | none => none
        | some lastRow =>
          let last_known_exog := (exog_raw.getLastD (0, 0)).2
          let future_dates := date_range (lastRow.1 + 1) forecast_steps freq
          some (series2, some exog_df,
            some (future_dates.map fun t => (t, last_known_exog)))

/-- The response dict of `fit_sarimax` (sarimax.py lines 148–162). -/
structure SxResponse where
  forecast : List ℚ
  lower_ci : List ℚ
  upper_ci : List ℚ
  dates : List Int
  aic : ℚ
  mae : ℚ
  mape : Option ℚ
  order : ℕ × ℕ × ℕ
  seasonal_order : ℕ × ℕ × ℕ × ℕ
deriving DecidableEq

/-- `fit_sarimax(history_data, exog_data, order, seasonal_order,
forecast_steps, auto_fit)` (sarimax.py lines 18–170).  `none` models the
`except` clause's `return None`; its reachable triggers here are:
`pd.infer_freq` on fewer than 3 timestamps, an empty aligned series,
a raising SARIMAX fit, and `mean_absolute_error` on empty or
mismatched-length arrays. -/
def fit_sarimax (lib : SarimaxLib) (history_data : List (Int × ℚ))
    (exog_data : Option (List (Int × ℚ))) (order : ℕ × ℕ × ℕ)
    (seasonal_order : ℕ × ℕ × ℕ × ℕ) (forecast_steps : ℕ) (auto_fit : Bool) :
    Option SxResponse :=
  if history_data.length < 3 then none
  else
    let df := sort_index history_data
    let freq := inferStep (df.map Prod.fst)
    match prepare_exog df exog_data forecast_steps freq with
    | none => none
    | some (series2, exog_df, future_exog) =>
      let fo :=
        if auto_fit then
          match lib.autoArima with
          | some auto =>
            match auto series2 exog_df with
            | some oso => oso
            | none => (order, seasonal_order)
          | none => (order, seasonal_order)
        else (order, seasonal_order)
      match lib.fit series2 exog_df fo.1 fo.2 with
      | none => none
      | some results =>
        match series2.getLast? with
        | none => none
        | some lastRow =>
          let forecast := results.forecastMean forecast_steps future_exog
          let lower := results.confLower forecast_steps future_exog
          let upper := results.confUpper forecast_steps future_exog
          let actuals := (series2.map Prod.snd).drop 1
          let preds := results.predictInSample 1 (series2.length - 1)
            (exog_df.map (·.drop 1))
          if actuals.isEmpty || preds.length != actuals.length then none
          else
            let mae := mean_absolute_error actuals preds
            let mape := np_mape actuals preds
            let future_dates := date_range (lastRow.1 + 1) forecast_steps freq
            some { forecast, lower_ci := lower, upper_ci := upper,
                   dates := future_dates,
                   aic := lib.pyRound results.aic 2, mae := lib.pyRound mae 4,
                   mape := mape.map (lib.pyRound · 2),
                   order := fo.1, seasonal_order := fo.2 }

/-! ## Concrete instruments for witnesses and counterexamples -/

/-- An ARIMA library whose fitted model always forecasts the last value of
the data it was fit on — it makes visible which data a fit received. -/
def lastModelOf (data : List ℚ) : FittedModel :=
  { predicted_mean := fun steps => List.replicate steps (data.getLastD 0),
    conf_lower := fun steps => List.replicate steps (data.getLastD 0 - 1),
    conf_upper := fun steps => List.replicate steps (data.getLastD 0 + 1) }

def lastValueLib : ArimaLib :=
  { fitAic := fun _ _ => some 0, fitModel := fun data _ => some (lastModelOf data) }

/-- A model whose forecasts are constantly 0. -/
def constModelC7 : FittedModel :=
  { predicted_mean := fun steps => List.replicate steps 0,
    conf_lower := fun steps => List.replicate steps (-1),
    conf_upper := fun steps => List.replicate steps 1 }

def constLibC7 : ArimaLib :=
  { fitAic := fun _ _ => some 0, fitModel := fun _ _ => some constModelC7 }

/-- The prediction record `run_arima_forecast` produces for the one-row frame
`[(0, 1)]`, horizon 2, step 1 under `constLibC7` with identity `sqrtQ`
(metric fields left as the defining expressions). -/
def c7pd : PredictionData :=
  { forecast := [0, 0], dates := [1, 2], order := (1, 1, 1),
    rmse := some (mean_squared_error [1] [0]),
    mae := some (mean_absolute_error [1] [0]),
    mape := some (np_mape [1] [0]),
    rmse_percent := some (mean_squared_error [1] [0] / lmean [1] * 100),
    mae_percent := some (mean_absolute_error [1] [0] / lmean [1] * 100),
    lower_bound := [-1, -1], upper_bound := [1, 1],
    residuals := some (List.zipWith (fun a b => a - b) [1] [0]),
    test_actual := some [1], test_predicted := some [0] }

/-- The prediction record `run_arima_forecast` produces for the frame
`[(0, 1), (1, 2), (2, 3)]`, horizon 1, step 1 under `lastValueLib` with
identity `sqrtQ` (metric fields left as the defining expressions). -/
def c2pd : PredictionData :=
  { forecast := [3], dates := [3], order := (1, 1, 1),
    rmse := some (mean_squared_error [3] [3]),
    mae := some (mean_absolute_error [3] [3]),
    mape := some (np_mape [3] [3]),
    rmse_percent := some (mean_squared_error [3] [3] / lmean [3] * 100),
    mae_percent := some (mean_absolute_error [3] [3] / lmean [3] * 100),
    lower_bound := [(3 : ℚ) - 1], upper_bound := [(3 : ℚ) + 1],
    residuals := some (List.zipWith (fun a b => a - b) [3] [3]),
    test_actual := some [3], test_predicted := some [3] }

/-- A solver that always reports failure (contract hypotheses about
successful runs hold vacuously for it). -/
def failSolver : Slsqp :=
  fun _ _ _ _ => { success := false, x := [], message := "did not converge" }

/-- A solver that echoes its initial guess and reports success. -/
def idleSolver : Slsqp :=
  fun _ x0 _ _ => { success := true, x := x0, message := "" }

/-- A SARIMAX library whose fitted results tag every output with 1 when the
fit received exogenous data and with 0 when it did not. -/
def probeResultsSx (tag : ℚ) : SarimaxResults :=
  { forecastMean := fun steps _ => List.replicate steps tag,
    confLower := fun steps _ => List.replicate steps (tag - 1),
    confUpper := fun steps _ => List.replicate steps (tag + 1),
    predictInSample := fun s e _ => List.replicate (e + 1 - s) tag,
    aic := 0 }

def probeSxLib : SarimaxLib :=
  { fit := fun _ ex _ _ => some (probeResultsSx (if ex.isSome then 1 else 0)),
    autoArima := none,
    pyRound := fun x _ => x }

/-- A SARIMAX library whose fit always raises. -/
def sxNoneLib : SarimaxLib :=
  { fit := fun _ _ _ _ => none, autoArima := none, pyRound := fun x _ => x }

/-- Twelve daily target rows. -/
def histC9 : List (Int × ℚ) :=
  [(0, 5), (1, 5), (2, 5), (3, 5), (4, 5), (5, 5), (6, 5), (7, 5), (8, 5),
   (9, 5), (10, 5), (11, 5)]

/-- Three exogenous rows: only 3 timestamps in common with `histC9`. -/
def exogC9 : List (Int × ℚ) := [(0, 7), (1, 8), (2, 9)]

/-- Twelve daily target rows with distinct prices. -/
def dfC9W : List (Int × ℚ) :=
  [(0, 1), (1, 2), (2, 3), (3, 4), (4, 5), (5, 6), (6, 7), (7, 8), (8, 9),
   (9, 10), (10, 11), (11, 12)]

/-- Twelve exogenous rows on the same timestamps as `dfC9W`. -/
def eC9W : List (Int × ℚ) :=
  [(0, 10), (1, 11), (2, 12), (3, 13), (4, 14), (5, 15), (6, 16), (7, 17),
   (8, 18), (9, 19), (10, 20), (11, 21)]

/-! ## Helper lemmas -/

theorem allSome_map_div_none (l : List (ℚ × ℚ)) (h : ∃ p ∈ l, p.1 = 0) :
    allSome (l.map fun p => (np_div (p.1 - p.2) p.1).map abs) = none := by
  induction l with
  | nil => obtain ⟨p, hp, _⟩ := h; cases hp
  | cons a l ih =>
    obtain ⟨p, hp, h0⟩ := h
    rcases List.mem_cons.mp hp with rfl | hp
    · simp [allSome, np_div, h0]
    · cases hhead : (np_div (a.1 - a.2) a.1).map abs with
      | none => simp [allSome, hhead]
      | some x => simp [allSome, hhead, ih ⟨p, hp, h0⟩]

theorem exists_zip_pair (l1 l2 : List ℚ) (a : ℚ) (ha : a ∈ l1)
    (hlen : l1.length = l2.length) : ∃ b, (a, b) ∈ l1.zip l2 := by
  induction l1 generalizing l2 with
  | nil => cases ha
  | cons x xs ih =>
    cases l2 with
    | nil => cases hlen
    | cons y ys =>
      rcases List.mem_cons.mp ha with rfl | ha
      · exact ⟨y, List.mem_cons_self _ _⟩
      · obtain ⟨b, hb⟩ := ih ys ha (by simpa using hlen)
        exact ⟨b, List.mem_cons_of_mem _ hb⟩

theorem forall₂_const_left {α β : Type} {R : α → β → Prop} {b : α} :
    ∀ {bs : List α} {l : List β}, List.Forall₂ R bs l → (∀ c ∈ bs, c = b) →
      ∀ x ∈ l, R b x := by
  intro bs l h
  induction h with
  | nil => intro _ x hx; cases hx
  | @cons a c l₁ l₂ hR _ ih =>
    intro hconst x hx
    rcases List.mem_cons.mp hx with rfl | hx
    · exact (hconst _ (List.mem_cons_self _ _)) ▸ hR
    · exact ih (fun d hd => hconst d (List.mem_cons_of_mem _ hd)) x hx

theorem pctAux_eq_zipWith (xs : List (Int × ℚ)) : ∀ x : Int × ℚ,
    pctAux x xs =
      List.zipWith (fun cur prev => (cur.1, cur.2 / prev.2 - 1)) xs (x :: xs) := by
  induction xs with
  | nil => intro x; rfl
  | cons y ys ih => intro x; simp [pctAux, List.zipWith, ih y]

theorem pct_change_dropna_eq_zipWith (s : List (Int × ℚ)) :
    pct_change_dropna s =
      List.zipWith (fun cur prev => (cur.1, cur.2 / prev.2 - 1)) (s.drop 1) s := by
  cases s with
  | nil => rfl
  | cons x xs => exact pctAux_eq_zipWith xs x

theorem pctAux_map_fst (xs : List (Int × ℚ)) : ∀ x : Int × ℚ,
    (pctAux x xs).map Prod.fst = xs.map Prod.fst := by
  induction xs with
  | nil => intro x; rfl
  | cons y ys ih => intro x; simp [pctAux, ih y]

theorem retDates_eq_drop (s : List (Int × ℚ)) :
    retDates s = (s.map Prod.fst).drop 1 := by
  cases s with
  | nil => rfl
  | cons x xs => simp [retDates, pct_change_dropna, pctAux_map_fst]

theorem gridStep_zero (f : ℕ × ℕ × ℕ → Option ℚ) (acc : Option (ℚ × (ℕ × ℕ × ℕ))) :
    gridStep f acc (0, 0, 0) = acc := by
  unfold gridStep
  rw [if_pos rfl]

theorem gridStep_fit_none (f : ℕ × ℕ × ℕ → Option ℚ)
    (acc : Option (ℚ × (ℕ × ℕ × ℕ))) (c : ℕ × ℕ × ℕ) (hc : c ≠ (0, 0, 0))
    (hfc : f c = none) : gridStep f acc c = acc := by
  unfold gridStep
  rw [if_neg hc, hfc]

theorem gridStep_first (f : ℕ × ℕ × ℕ → Option ℚ) (c : ℕ × ℕ × ℕ) (a : ℚ)
    (hc : c ≠ (0, 0, 0)) (hfc : f c = some a) :
    gridStep f none c = some (a, c) := by
  unfold gridStep
  rw [if_neg hc, hfc]

theorem gridStep_lt (f : ℕ × ℕ × ℕ → Option ℚ) (c c0 : ℕ × ℕ × ℕ) (a b0 : ℚ)
    (hc : c ≠ (0, 0, 0)) (hfc : f c = some a) (hab : a < b0) :
    gridStep f (some (b0, c0)) c = some (a, c) := by
  unfold gridStep
  rw [if_neg hc, hfc]
  show (if a < b0 then some (a, c) else some (b0, c0)) = some (a, c)
  rw [if_pos hab]

theorem gridStep_ge (f : ℕ × ℕ × ℕ → Option ℚ) (c c0 : ℕ × ℕ × ℕ) (a b0 : ℚ)
    (hc : c ≠ (0, 0, 0)) (hfc : f c = some a) (hab : ¬a < b0) :
    gridStep f (some (b0, c0)) c = some (b0, c0) := by
  unfold gridStep
  rw [if_neg hc, hfc]
  show (if a < b0 then some (a, c) else some (b0, c0)) = some (b0, c0)
  rw [if_neg hab]

theorem gridStep_eq_none_iff (f : ℕ × ℕ × ℕ → Option ℚ)
    (acc : Option (ℚ × (ℕ × ℕ × ℕ))) (c : ℕ × ℕ × ℕ) :
    gridStep f acc c = none ↔ acc = none ∧ (c ≠ (0, 0, 0) → f c = none) := by
  by_cases hc : c = (0, 0, 0)
  · subst hc
    rw [gridStep_zero]
    exact ⟨fun h => ⟨h, fun h000 => absurd rfl h000⟩, fun h => h.1⟩
  · cases hfc : f c with
    | none =>
      rw [gridStep_fit_none f acc c hc hfc]
      exact ⟨fun h => ⟨h, fun _ => rfl⟩, fun h => h.1⟩
    | some a =>
      cases acc with
      | none =>
        rw [gridStep_first f c a hc hfc]
        constructor
        · intro h
          cases h
        · rintro ⟨-, h2⟩
          cases h2 hc
      | some p =>
        rcases p with ⟨b0, c0⟩
        constructor
        · intro h
          by_cases hab : a < b0
          · rw [gridStep_lt f c c0 a b0 hc hfc hab] at h
            cases h
          · rw [gridStep_ge f c c0 a b0 hc hfc hab] at h
            cases h
        · rintro ⟨h1, -⟩
          cases h1

theorem grid_foldl_none_iff (f : ℕ × ℕ × ℕ → Option ℚ) :
    ∀ (l : List (ℕ × ℕ × ℕ)) (acc : Option (ℚ × (ℕ × ℕ × ℕ))),
      l.foldl (gridStep f) acc = none ↔
        acc = none ∧ ∀ c ∈ l, c ≠ (0, 0, 0) → f c = none := by
  intro l
  induction l with
  | nil => intro acc; simp
  | cons x xs ih =>
    intro acc
    rw [List.foldl_cons, ih, gridStep_eq_none_iff]
    constructor
    · rintro ⟨⟨hacc, hx⟩, hall⟩
      refine ⟨hacc, fun c hc h000 => ?_⟩
      rcases List.mem_cons.mp hc with rfl | hc
      · exact hx h000
      · exact hall c hc h000
    · rintro ⟨hacc, hall⟩
      exact ⟨⟨hacc, fun h000 => hall x (List.mem_cons_self _ _) h000⟩,
        fun c hc h000 => hall c (List.mem_cons_of_mem _ hc) h000⟩

theorem grid_foldl_some (f : ℕ × ℕ × ℕ → Option ℚ) :
    ∀ (l : List (ℕ × ℕ × ℕ)) (acc : Option (ℚ × (ℕ × ℕ × ℕ))) (b : ℚ)
      (c : ℕ × ℕ × ℕ), l.foldl (gridStep f) acc = some (b, c) →
      (acc = some (b, c) ∨ (c ∈ l ∧ c ≠ (0, 0, 0) ∧ f c = some b)) ∧
      (∀ p, acc = some p → b ≤ p.1) ∧
      (∀ c' a', c' ∈ l → c' ≠ (0, 0, 0) → f c' = some a' → b ≤ a') := by
  intro l
  induction l with
  | nil =>
    intro acc b c h
    simp only [List.foldl_nil] at h
    refine ⟨Or.inl h, ?_, ?_⟩
    · intro p hp
      rw [h] at hp
      cases hp
      exact le_refl b
    · intro c' a' hc'
      exact absurd hc' (List.not_mem_nil c')
  | cons x xs ih =>
    intro acc b c h
    rw [List.foldl_cons] at h
    obtain ⟨h1, h2, h3⟩ := ih (gridStep f acc x) b c h
    by_cases hx0 : x = (0, 0, 0)
    · rw [hx0, gridStep_zero] at h1 h2
      refine ⟨?_, h2, ?_⟩
      · rcases h1 with h1 | ⟨hc, hcc, hfc⟩
        · exact Or.inl h1
        · exact Or.inr ⟨List.mem_cons_of_mem _ hc, hcc, hfc⟩
      · intro c' a' hc' h000 hfa
        rcases List.mem_cons.mp hc' with rfl | hc'
        · exact absurd hx0 h000
        · exact h3 c' a' hc' h000 hfa
    · cases hfx : f x with
      | none =>
        rw [gridStep_fit_none f acc x hx0 hfx] at h1 h2
        refine ⟨?_, h2, ?_⟩
        · rcases h1 with h1 | ⟨hc, hcc, hfc⟩
          · exact Or.inl h1
          · exact Or.inr ⟨List.mem_cons_of_mem _ hc, hcc, hfc⟩
        · intro c' a' hc' h000 hfa
          rcases List.mem_cons.mp hc' with rfl | hc'
          · rw [hfx] at hfa; cases hfa
          · exact h3 c' a' hc' h000 hfa
      | some a =>
        cases acc with
        | none =>
          rw [gridStep_first f x a hx0 hfx] at h1 h2
          have hba : b ≤ a := h2 (a, x) rfl
          refine ⟨?_, ?_, ?_⟩
          · rcases h1 with h1 | ⟨hc, hcc, hfc⟩
            · cases h1
              exact Or.inr ⟨List.mem_cons_self _ _, hx0, hfx⟩
            · exact Or.inr ⟨List.mem_cons_of_mem _ hc, hcc, hfc⟩
          · intro p hp
            cases hp
          · intro c' a' hc' h000 hfa
            rcases List.mem_cons.mp hc' with rfl | hc'
            · rw [hfx] at hfa
              cases hfa
              exact hba
            · exact h3 c' a' hc' h000 hfa
        | some p =>
          rcases p with ⟨b0, c0⟩
          by_cases hab : a < b0
          · rw [gridStep_lt f x c0 a b0 hx0 hfx hab] at h1 h2
            have hba : b ≤ a := h2 (a, x) rfl
            refine ⟨?_, ?_, ?_⟩
            · rcases h1 with h1 | ⟨hc, hcc, hfc⟩
              · cases h1
                exact Or.inr ⟨List.mem_cons_self _ _, hx0, hfx⟩
              · exact Or.inr ⟨List.mem_cons_of_mem _ hc, hcc, hfc⟩
            · intro p hp
              cases hp
              exact le_trans hba (le_of_lt hab)
            · intro c' a' hc' h000 hfa
              rcases List.mem_cons.mp hc' with rfl | hc'
              · rw [hfx] at hfa
                cases hfa
                exact hba
              · exact h3 c' a' hc' h000 hfa
          · rw [gridStep_ge f x c0 a b0 hx0 hfx hab] at h1 h2
            have hbb0 : b ≤ b0 := h2 (b0, c0) rfl
            refine ⟨?_, ?_, ?_⟩
            · rcases h1 with h1 | ⟨hc, hcc, hfc⟩
              · exact Or.inl h1
              · exact Or.inr ⟨List.mem_cons_of_mem _ hc, hcc, hfc⟩
            · intro p hp
              cases hp
              exact hbb0
            · intro c' a' hc' h000 hfa
              rcases List.mem_cons.mp hc' with rfl | hc'
              · rw [hfx] at hfa
                cases hfa
                exact le_trans hbb0 (not_lt.mp hab)
              · exact h3 c' a' hc' h000 hfa

theorem date_range_drop_one (start : Int) (n : ℕ) (step : Int) :
    (date_range start (n + 1) step).drop 1 =
      (List.range n).map fun (k : ℕ) => start + ((k : Int) + 1) * step := by
  simp only [date_range, List.range_succ_eq_map, List.map_cons,
    List.drop_succ_cons, List.drop_zero, List.map_map]
  refine List.map_congr_left fun k _ => ?_
  simp only [Function.comp_apply]
  push_cast
  ring

theorem chain'_dates (start : Int) (n : ℕ) (step : Int) (hstep : 0 < step) :
    List.Chain' (· < ·)
      ((List.range n).map fun (k : ℕ) => start + ((k : Int) + 1) * step) := by
  apply List.Pairwise.chain'
  refine List.pairwise_map.mpr ((List.pairwise_lt_range n).imp ?_)
  intro a b hab
  have hab' : (a : Int) + 1 < (b : Int) + 1 := by exact_mod_cast Nat.succ_lt_succ hab
  have := mul_lt_mul_of_pos_right hab' hstep
  linarith

theorem mem_dates_gt (start : Int) (n : ℕ) (step : Int) (hstep : 0 < step) :
    ∀ d ∈ (List.range n).map fun (k : ℕ) => start + ((k : Int) + 1) * step,
      start < d := by
  intro d hd
  obtain ⟨k, -, rfl⟩ := List.mem_map.mp hd
  have h1 : (0 : Int) < (k : Int) + 1 := by positivity
  have := mul_pos h1 hstep
  linarith

/-! ## Claim C6 -/

/-- C6: `portfolio_stats` returns exactly
`(252·(μ·w), √252·√(wᵀΣw), (ret − rf)/vol)` except that when the annualized
volatility is exactly 0 the Sharpe ratio is 0 (no division by zero is
performed), assuming only that `np.sqrt` is nonnegative; the ×252
annualization is a fixed constant of the computation, independent of the
sampling interval. -/
theorem C6_portfolio_stats_exact (sqrtQ : ℚ → ℚ) (weights mean_returns : List ℚ)
    (cov_matrix : List (List ℚ)) (rf_rate : ℚ) (hpos : ∀ x, 0 ≤ sqrtQ x) :
    portfolio_stats sqrtQ weights mean_returns cov_matrix rf_rate =
      (252 * dotQ mean_returns weights,
        sqrtQ 252 * sqrtQ (quadForm cov_matrix weights),
        if sqrtQ 252 * sqrtQ (quadForm cov_matrix weights) = 0 then 0
        else (252 * dotQ mean_returns weights - rf_rate) /
          (sqrtQ 252 * sqrtQ (quadForm cov_matrix weights))) ∧
    ((portfolio_stats sqrtQ weights mean_returns cov_matrix rf_rate).2.1 = 0 →
      (portfolio_stats sqrtQ weights mean_returns cov_matrix rf_rate).2.2 = 0) := by
  have h0 : (0 : ℚ) ≤ sqrtQ (quadForm cov_matrix weights) * sqrtQ 252 :=
    mul_nonneg (hpos _) (hpos _)
  have hcomm : sqrtQ (quadForm cov_matrix weights) * sqrtQ 252 =
      sqrtQ 252 * sqrtQ (quadForm cov_matrix weights) := mul_comm _ _
  constructor
  · show (dotQ mean_returns weights * 252,
        sqrtQ (quadForm cov_matrix weights) * sqrtQ 252,
        if sqrtQ (quadForm cov_matrix weights) * sqrtQ 252 > 0 then
          (dotQ mean_returns weights * 252 - rf_rate) /
            (sqrtQ (quadForm cov_matrix weights) * sqrtQ 252)
        else 0) = _
    rw [mul_comm (dotQ mean_returns weights) 252, hcomm]
    by_cases hB : sqrtQ 252 * sqrtQ (quadForm cov_matrix weights) = 0
    · rw [if_neg (by rw [hB]; exact lt_irrefl 0), if_pos hB]
    · rw [if_pos (lt_of_le_of_ne (hcomm ▸ h0) (Ne.symm hB)), if_neg hB]
  · intro h
    have h' : sqrtQ (quadForm cov_matrix weights) * sqrtQ 252 = 0 := h
    show (if sqrtQ (quadForm cov_matrix weights) * sqrtQ 252 > 0 then
        (dotQ mean_returns weights * 252 - rf_rate) /
          (sqrtQ (quadForm cov_matrix weights) * sqrtQ 252)
      else 0) = 0
    rw [if_neg (by rw [h']; exact lt_irrefl 0)]

/-- Witness for C6 at a concrete input. -/
theorem C6_witness :
    portfolio_stats (fun _ => (0 : ℚ)) [1] [2] [[3]] (1 / 2) =
      (252 * dotQ [2] [1], 0, 0) := by
  have h := (C6_portfolio_stats_exact (fun _ => 0) [1] [2] [[3]] (1 / 2)
    (fun _ => le_refl 0)).1
  simpa using h

/-! ## Claim C1 -/

/-- C1 counterexample: at test slice `[0, 1]` with predictions `[1, 1]` the
code's MAPE (`np_mape`, line 109 of analysis_logic.py) is non-finite — the
zero-valued point is not excluded — whereas the aggregate the claim
describes (zero points excluded, mean over the rest) is the finite value 0. -/
theorem C1_counterexample :
    np_mape [0, 1] [1, 1] = none ∧ mape_excluding_zeros [0, 1] [1, 1] = some 0 := by
  refine ⟨rfl, ?_⟩
  simp [mape_excluding_zeros, lmean]

/-- C1 (amended): `run_arima_forecast`'s MAPE expression performs no
zero-exclusion: whenever any actual value in the test slice is exactly 0,
the whole aggregate is a non-finite float (numpy produces inf/NaN without
raising), not a mean over the remaining points. -/
theorem C1_mape_not_excluded (test preds : List ℚ)
    (hlen : test.length = preds.length) (hzero : (0 : ℚ) ∈ test) :
    np_mape test preds = none := by
  obtain ⟨b, hb⟩ := exists_zip_pair test preds 0 hzero hlen
  have h := allSome_map_div_none (test.zip preds) ⟨(0, b), hb, rfl⟩
  simp [np_mape, np_mean_opt, h]

/-- Witness for the amended C1 at a concrete input. -/
theorem C1_witness : np_mape [0, 5] [2, 2] = none :=
  C1_mape_not_excluded [0, 5] [2, 2] rfl (by decide)

/-! ## Claim C3 -/

/-- C3: when the aligned return matrix has zero rows (in particular for an
empty input mapping, for which `calculate_returns` returns no rows), the
optimization entry point returns an error value with a human-readable
message and no partial result; with at least two tickers the message is the
insufficient-data diagnostic. -/
theorem C3_insufficient_data (solver : Slsqp) (sqrtQ : ℚ → ℚ)
    (randWeights : ℕ → List ℚ) (current_data : List (List (Int × ℚ)))
    (tickers : List String) (rf_rate : ℚ)
    (hempty : calculate_returns current_data = []) :
    (∀ r, run_portfolio_optimization solver sqrtQ randWeights current_data
        tickers rf_rate ≠ Except.ok r) ∧
    (2 ≤ tickers.length →
      run_portfolio_optimization solver sqrtQ randWeights current_data
          tickers rf_rate =
        Except.error "No hay suficientes datos para calcular retornos") := by
  unfold run_portfolio_optimization
  by_cases ht : tickers.length < 2
  · rw [if_pos ht]
    exact ⟨fun r h => Except.noConfusion h, fun h2 => absurd ht (by omega)⟩
  · rw [if_neg ht]
    simp only [hempty, List.isEmpty_nil, if_true]
    exact ⟨fun r h => Except.noConfusion h, fun _ => trivial⟩

/-- Witness for C3: the empty input mapping. -/
theorem C3_witness :
    run_portfolio_optimization idleSolver (fun q => q) (fun _ => []) []
        ["A", "B"] (3 / 100) =
      Except.error "No hay suficientes datos para calcular retornos" :=
  (C3_insufficient_data idleSolver (fun q => q) (fun _ => []) [] ["A", "B"]
    (3 / 100) rfl).2 (by decide)

/-! ## Claim C4 -/

/-- C4: `optimize_portfolio` seeds the solve from the equal-weight vector
(`1/N` per asset) with `[0,1]` box bounds and the `sum − 1` equality
constraint; for any solver that honors the bounds and equality constraint it
is given (within SLSQP's `1e-6` tolerance) on success, every weight vector
returned satisfies `|sum(w) − 1| ≤ 1e-6` and `0 ≤ wᵢ ≤ 1`; and a
non-converged solve raises (`Except.error`) rather than returning a vector. -/
theorem C4_optimizer_feasible (solver : Slsqp) (sqrtQ : ℚ → ℚ)
    (mean_returns : List ℚ) (cov_matrix : List (List ℚ)) (rf_rate : ℚ)
    (hsolver : ∀ f x0 bnds con, (solver f x0 bnds con).success = true →
      List.Forall₂ (fun (b : ℚ × ℚ) (x : ℚ) => b.1 ≤ x ∧ x ≤ b.2) bnds
        (solver f x0 bnds con).x ∧
      |con (solver f x0 bnds con).x| ≤ 1 / 1000000) :
    (optimize_portfolio solver sqrtQ mean_returns cov_matrix rf_rate =
      (let r := solver
        (fun w => negative_sharpe sqrtQ w mean_returns cov_matrix rf_rate)
        (List.replicate mean_returns.length ((1 : ℚ) / (mean_returns.length : ℚ)))
        (List.replicate mean_returns.length ((0 : ℚ), (1 : ℚ)))
        (fun x => x.sum - 1)
       if r.success then Except.ok r.x
       else Except.error ("Optimization failed: " ++ r.message))) ∧
    (∀ w, optimize_portfolio solver sqrtQ mean_returns cov_matrix rf_rate =
        Except.ok w →
      |w.sum - 1| ≤ 1 / 1000000 ∧ ∀ x ∈ w, 0 ≤ x ∧ x ≤ 1) ∧
    ((solver (fun w => negative_sharpe sqrtQ w mean_returns cov_matrix rf_rate)
        (List.replicate mean_returns.length ((1 : ℚ) / (mean_returns.length : ℚ)))
        (List.replicate mean_returns.length ((0 : ℚ), (1 : ℚ)))
        (fun x => x.sum - 1)).success = false →
      optimize_portfolio solver sqrtQ mean_returns cov_matrix rf_rate =
        Except.error ("Optimization failed: " ++
          (solver (fun w => negative_sharpe sqrtQ w mean_returns cov_matrix rf_rate)
            (List.replicate mean_returns.length ((1 : ℚ) / (mean_returns.length : ℚ)))
            (List.replicate mean_returns.length ((0 : ℚ), (1 : ℚ)))
            (fun x => x.sum - 1)).message)) := by
  refine ⟨rfl, ?_, ?_⟩
  · intro w hw
    simp only [optimize_portfolio] at hw
    split at hw
    · cases hw
      rename_i hsucc
      obtain ⟨hb, hc⟩ := hsolver _ _ _ _ hsucc
      refine ⟨by simpa using hc, ?_⟩
      intro x hx
      exact forall₂_const_left hb
        (fun c hc => List.eq_of_mem_replicate hc) x hx
    · exact Except.noConfusion hw
  · intro hfail
    simp only [optimize_portfolio]
    rw [if_neg (by rw [hfail]; exact Bool.false_ne_true)]

/-- Witness for C4: a solver that reports failure makes the entry point
raise. -/
theorem C4_witness :
    optimize_portfolio failSolver (fun q => q) [1, 2] [[1, 0], [0, 1]]
        (3 / 100) =
      Except.error ("Optimization failed: " ++ "did not converge") :=
  (C4_optimizer_feasible failSolver (fun q => q) [1, 2] [[1, 0], [0, 1]]
    (3 / 100) (fun _ _ _ _ h => absurd h Bool.false_ne_true)).2.2 rfl

/-! ## Claim C10 -/

/-- C10: when exogenous data is supplied to `fit_sarimax` but the target and
exogenous series share fewer than 10 common timestamps, the behaviour is
bit-for-bit the behaviour of a call without exogenous data: the regressors
are silently discarded, the model is fit on the target alone, no error is
produced for the discard, and the returned response carries no indication of
it. -/
theorem C10_exog_silently_discarded (lib : SarimaxLib)
    (history_data e : List (Int × ℚ)) (order : ℕ × ℕ × ℕ)
    (seasonal_order : ℕ × ℕ × ℕ × ℕ) (forecast_steps : ℕ) (auto_fit : Bool)
    (hne : e ≠ [])
    (hoverlap : (((sort_index history_data).map Prod.fst).filter fun t =>
        ((sort_index e).map Prod.fst).contains t).length < 10) :
    fit_sarimax lib history_data (some e) order seasonal_order forecast_steps
        auto_fit =
      fit_sarimax lib history_data none order seasonal_order forecast_steps
        auto_fit := by
  unfold fit_sarimax
  by_cases hlen : history_data.length < 3
  · rw [if_pos hlen, if_pos hlen]
  · rw [if_neg hlen, if_neg hlen]
    have hprep : prepare_exog (sort_index history_data) (some e) forecast_steps
        (inferStep ((sort_index history_data).map Prod.fst)) =
        prepare_exog (sort_index history_data) none forecast_steps
          (inferStep ((sort_index history_data).map Prod.fst)) := by
      have he : e.isEmpty = false := by
        cases e with
        | nil => exact absurd rfl hne
        | cons a as => rfl
      simp only [prepare_exog, he, Bool.false_eq_true, if_false]
      rw [if_pos hoverlap]
    simp only [hprep]

/-- Witness for C10 at a concrete input (one common timestamp). -/
theorem C10_witness :
    fit_sarimax sxNoneLib [(0, 1), (1, 2), (2, 3)] (some [(0, 4)]) (1, 1, 1)
        (0, 1, 1, 12) 2 false =
      fit_sarimax sxNoneLib [(0, 1), (1, 2), (2, 3)] none (1, 1, 1)
        (0, 1, 1, 12) 2 false :=
  C10_exog_silently_discarded sxNoneLib [(0, 1), (1, 2), (2, 3)] [(0, 4)]
    (1, 1, 1) (0, 1, 1, 12) 2 false (by decide) (by decide)

/-! ## Claim C8 -/

/-- C8: `calculate_returns` computes, per asset, the period-over-period
percentage change of close prices with the first (undefined) observation
dropped; a timestamp appears as a row of the combined matrix exactly when
every asset's return series has it (inner join, rows with any missing asset
value dropped); consequently two assets with identical timestamp lists of
common length `N` produce exactly `N − 1` rows. -/
theorem C8_return_matrix (a b : List (Int × ℚ))
    (hab : a.map Prod.fst = b.map Prod.fst) (hnd : (a.map Prod.fst).Nodup) :
    (∀ s : List (Int × ℚ), pct_change_dropna s =
      List.zipWith (fun cur prev => (cur.1, cur.2 / prev.2 - 1)) (s.drop 1) s) ∧
    (∀ assets : List (List (Int × ℚ)), assets ≠ [] → ∀ t : Int,
      (t ∈ joinDates assets ↔ ∀ s ∈ assets, t ∈ retDates s)) ∧
    (calculate_returns [a, b]).length = a.length - 1 := by
  refine ⟨pct_change_dropna_eq_zipWith, ?_, ?_⟩
  · intro assets hne t
    cases assets with
    | nil => exact absurd rfl hne
    | cons c rest =>
      simp only [joinDates, List.mem_filter, List.all_eq_true]
      constructor
      · rintro ⟨hc, hall⟩ s hs
        rcases List.mem_cons.mp hs with rfl | hs
        · exact hc
        · simpa using hall s hs
      · intro h
        refine ⟨h c (List.mem_cons_self _ _), fun s hs => ?_⟩
        simpa using h s (List.mem_cons_of_mem _ hs)
  · have hre : retDates b = retDates a := by
      rw [retDates_eq_drop, retDates_eq_drop, hab]
    have hfilter : joinDates [a, b] = retDates a := by
      simp only [joinDates]
      refine List.filter_eq_self.mpr fun t ht => ?_
      simp [hre]
      simpa using ht
    have hlen : (joinDates [a, b]).length = a.length - 1 := by
      rw [hfilter, retDates_eq_drop]
      simp
    simpa [calculate_returns] using hlen

/-- Witness for C8 at two concrete three-row assets. -/
theorem C8_witness :
    (calculate_returns
      [[((0 : Int), (1 : ℚ)), (1, 2), (2, 3)],
       [((0 : Int), (2 : ℚ)), (1, 4), (2, 8)]]).length = 3 - 1 :=
  (C8_return_matrix [(0, 1), (1, 2), (2, 3)] [(0, 2), (1, 4), (2, 8)] rfl
    (by decide)).2.2

/-! ## Claim C5 -/

/-- C5: the grid-search fallback enumerates exactly the combinations
`p ∈ [0, max_p] × d ∈ [0, max_d] × q ∈ [0, max_q]`; when every combination
other than `(0,0,0)` fails to fit (`none`, the fit raised), it returns the
fixed order `(1,1,1)` rather than raising; and when at least one combination
fits, it returns a combination (never `(0,0,0)`) whose AIC is minimal among
all successfully fit combinations — raising combinations are skipped without
aborting the search. -/
theorem C5_grid_search (lib : ArimaLib) (train : List ℚ) (max_p max_d max_q : ℕ) :
    (∀ p d q : ℕ, (p, d, q) ∈ gridCombos max_p max_d max_q ↔
      p ≤ max_p ∧ d ≤ max_d ∧ q ≤ max_q) ∧
    ((∀ c ∈ gridCombos max_p max_d max_q, c ≠ (0, 0, 0) →
        lib.fitAic train c = none) →
      auto_arima_grid_search lib train max_p max_d max_q = (1, 1, 1)) ∧
    (∀ c₀ a₀, c₀ ∈ gridCombos max_p max_d max_q → c₀ ≠ (0, 0, 0) →
      lib.fitAic train c₀ = some a₀ →
      auto_arima_grid_search lib train max_p max_d max_q ∈
        gridCombos max_p max_d max_q ∧
      auto_arima_grid_search lib train max_p max_d max_q ≠ (0, 0, 0) ∧
      ∃ bst, lib.fitAic train (auto_arima_grid_search lib train max_p max_d max_q) =
          some bst ∧
        ∀ c aic, c ∈ gridCombos max_p max_d max_q → c ≠ (0, 0, 0) →
          lib.fitAic train c = some aic → bst ≤ aic) := by
  refine ⟨?_, ?_, ?_⟩
  · intro p d q
    constructor
    · intro h
      simp only [gridCombos, List.mem_flatMap, List.mem_map, List.mem_range] at h
      obtain ⟨p1, hp1, d1, hd1, q1, hq1, heq⟩ := h
      have h3 : p1 = p ∧ d1 = d ∧ q1 = q := by simpa [Prod.ext_iff] using heq
      obtain ⟨rfl, rfl, rfl⟩ := h3
      exact ⟨Nat.lt_succ_iff.mp hp1, Nat.lt_succ_iff.mp hd1, Nat.lt_succ_iff.mp hq1⟩
    · rintro ⟨hp, hd, hq⟩
      simp only [gridCombos, List.mem_flatMap, List.mem_map, List.mem_range]
      exact ⟨p, Nat.lt_succ_iff.mpr hp, d, Nat.lt_succ_iff.mpr hd,
        q, Nat.lt_succ_iff.mpr hq, rfl⟩
  · intro hall
    unfold auto_arima_grid_search
    rw [(grid_foldl_none_iff (lib.fitAic train) (gridCombos max_p max_d max_q)
      none).mpr ⟨rfl, hall⟩]
  · intro c₀ a₀ hmem h000 hfit
    cases hfold : (gridCombos max_p max_d max_q).foldl
        (gridStep (lib.fitAic train)) none with
    | none =>
      have hnone := (grid_foldl_none_iff (lib.fitAic train) _ none).mp hfold
      rw [hnone.2 c₀ hmem h000] at hfit
      cases hfit
    | some p =>
      rcases p with ⟨bst, cbest⟩
      obtain ⟨h1, -, h3⟩ :=
        grid_foldl_some (lib.fitAic train) _ none bst cbest hfold
      rcases h1 with h1 | ⟨hcb, hcb0, hfcb⟩
      · cases h1
      · have hres : auto_arima_grid_search lib train max_p max_d max_q = cbest := by
          unfold auto_arima_grid_search
          rw [hfold]
        rw [hres]
        exact ⟨hcb, hcb0, bst, hfcb, h3⟩

/-! ## Claim C2 -/

/-- C2 counterexample: with a library whose fitted models forecast the last
value of the data they were fit on, at the frame `[(0,1), (1,2), (2,3)]`
(train slice `[1, 2]`, test slice `[3]`) the returned `test_predicted` is
`[3]`, the forecast of the model fit on the entire series, while a model fit
only on the train slice would predict `[2]` — the backtest metrics are not
computed from a train-only fit. -/
theorem C2_counterexample :
    ((run_arima_forecast lastValueLib (fun q => q) false (fun _ => none)
        [((0 : Int), (1 : ℚ)), (1, 2), (2, 3)] 1 1 false (1, 1, 1)).map
      fun pd => pd.test_predicted) = some (some [3]) ∧
    ((lastValueLib.fitModel [1, 2] (1, 1, 1)).map
      fun m => m.predicted_mean 1) = some [2] ∧
    some (some [(3 : ℚ)]) ≠ some (some [(2 : ℚ)]) := by
  refine ⟨rfl, rfl, by decide⟩

/-- C2 (amended): for every forecast run with a non-empty test slice, the
backtest comparison uses the model fit on the **entire** close series —
`test_predicted` is that model's forecast of `len(test)` steps past the end
of the sample, `test_actual` is the tail slice, MAE/RMSE are derived from
those, and the production forecast comes from the same full-series fit; the
train slice is used only for automatic order selection, never fit for the
metrics. -/
theorem C2_metrics_full_fit (lib : ArimaLib) (sqrtQ : ℚ → ℚ)
    (pmdarima_available : Bool) (auto_arima : List ℚ → Option (ℕ × ℕ × ℕ))
    (df : List (Int × ℚ)) (horizon : ℕ) (freq_step : Int) (is_auto : Bool)
    (manual_order : ℕ × ℕ × ℕ) (m : FittedModel) (pd : PredictionData)
    (hfit : lib.fitModel (df.map Prod.snd)
      (selected_order lib auto_arima pmdarima_available
        ((df.map Prod.snd).take (train_size_of (df.map Prod.snd).length))
        is_auto manual_order) = some m)
    (htest : (df.map Prod.snd).drop (train_size_of (df.map Prod.snd).length) ≠ [])
    (hrun : run_arima_forecast lib sqrtQ pmdarima_available auto_arima df
      horizon freq_step is_auto manual_order = some pd) :
    pd.test_actual =
      some ((df.map Prod.snd).drop (train_size_of (df.map Prod.snd).length)) ∧
    pd.test_predicted = some (m.predicted_mean
      ((df.map Prod.snd).drop (train_size_of (df.map Prod.snd).length)).length) ∧
    pd.mae = some (mean_absolute_error
      ((df.map Prod.snd).drop (train_size_of (df.map Prod.snd).length))
      (m.predicted_mean
        ((df.map Prod.snd).drop (train_size_of (df.map Prod.snd).length)).length)) ∧
    pd.rmse = some (sqrtQ (mean_squared_error
      ((df.map Prod.snd).drop (train_size_of (df.map Prod.snd).length))
      (m.predicted_mean
        ((df.map Prod.snd).drop (train_size_of (df.map Prod.snd).length)).length))) ∧
    pd.forecast = m.predicted_mean horizon := by
  simp only [run_arima_forecast] at hrun
  rw [hfit] at hrun
  cases hlast : df.getLast? with
  | none =>
    rw [hlast] at hrun
    exact Option.noConfusion hrun
  | some last =>
    rw [hlast] at hrun
    have hte : ((df.map Prod.snd).drop
        (train_size_of (df.map Prod.snd).length)).isEmpty = false := by
      cases hd : (df.map Prod.snd).drop (train_size_of (df.map Prod.snd).length) with
      | nil => exact absurd hd htest
      | cons a l => rfl
    rw [hte] at hrun
    simp only [Bool.false_eq_true, if_false] at hrun
    cases hrun
    exact ⟨rfl, rfl, rfl, rfl, rfl⟩

/-- Witness for the amended C2 at the counterexample's concrete input. -/
theorem C2_witness :
    c2pd.test_actual = some [(3 : ℚ)] ∧
    c2pd.test_predicted = some ((lastModelOf [1, 2, 3]).predicted_mean 1) ∧
    c2pd.mae = some (mean_absolute_error [3]
      ((lastModelOf [1, 2, 3]).predicted_mean 1)) ∧
    c2pd.rmse = some ((fun q => q) (mean_squared_error [3]
      ((lastModelOf [1, 2, 3]).predicted_mean 1))) ∧
    c2pd.forecast = (lastModelOf [1, 2, 3]).predicted_mean 1 :=
  C2_metrics_full_fit lastValueLib (fun q => q) false (fun _ => none)
    [(0, 1), (1, 2), (2, 3)] 1 1 false (1, 1, 1) (lastModelOf [1, 2, 3]) c2pd
    rfl (by decide) rfl

/-! ## Claim C7 -/

/-- C7: for every successful forecast, the forecast, lower bound, upper
bound and future-date sequences all have length `horizon` (assuming the
statsmodels contract that `get_forecast(steps)` returns `steps` values), and
the future dates continue the series' frequency: they are
`last + k·step` for `k = 1..horizon`, strictly increasing, all strictly
after the last observed timestamp. -/
theorem C7_horizon_contract (lib : ArimaLib) (sqrtQ : ℚ → ℚ)
    (pmdarima_available : Bool) (auto_arima : List ℚ → Option (ℕ × ℕ × ℕ))
    (df : List (Int × ℚ)) (horizon : ℕ) (freq_step : Int) (is_auto : Bool)
    (manual_order : ℕ × ℕ × ℕ) (pd : PredictionData)
    (hlib : ∀ data ord m, lib.fitModel data ord = some m → ∀ steps,
      (m.predicted_mean steps).length = steps ∧
      (m.conf_lower steps).length = steps ∧ (m.conf_upper steps).length = steps)
    (hstep : 0 < freq_step)
    (hrun : run_arima_forecast lib sqrtQ pmdarima_available auto_arima df
      horizon freq_step is_auto manual_order = some pd) :
    pd.forecast.length = horizon ∧ pd.lower_bound.length = horizon ∧
    pd.upper_bound.length = horizon ∧ pd.dates.length = horizon ∧
    pd.dates = (List.range horizon).map
      (fun (k : ℕ) => (df.getLastD (0, 0)).1 + ((k : Int) + 1) * freq_step) ∧
    List.Chain' (· < ·) pd.dates ∧
    ∀ d ∈ pd.dates, (df.getLastD (0, 0)).1 < d := by
  simp only [run_arima_forecast] at hrun
  cases hfit : lib.fitModel (df.map Prod.snd)
      (selected_order lib auto_arima pmdarima_available
        ((df.map Prod.snd).take (train_size_of (df.map Prod.snd).length))
        is_auto manual_order) with
  | none =>
    rw [hfit] at hrun
    exact Option.noConfusion hrun
  | some m =>
    rw [hfit] at hrun
    cases hlast : df.getLast? with
    | none =>
      rw [hlast] at hrun
      exact Option.noConfusion hrun
    | some last =>
      rw [hlast] at hrun
      have hlastd : df.getLastD (0, 0) = last := by
        rw [List.getLastD_eq_getLast?, hlast]
        rfl
      cases hte : ((df.map Prod.snd).drop
          (train_size_of (df.map Prod.snd).length)).isEmpty with
      | true =>
        rw [hte] at hrun
        cases hrun
        exact ⟨(hlib _ _ _ hfit horizon).1, (hlib _ _ _ hfit horizon).2.1,
          (hlib _ _ _ hfit horizon).2.2,
          by rw [date_range_drop_one]; simp,
          by rw [date_range_drop_one, hlastd],
          by rw [date_range_drop_one]; exact chain'_dates _ _ _ hstep,
          by
            intro d hd
            rw [date_range_drop_one] at hd
            rw [hlastd]
            exact mem_dates_gt _ _ _ hstep d hd⟩
      | false =>
        rw [hte] at hrun
        cases hrun
        exact ⟨(hlib _ _ _ hfit horizon).1, (hlib _ _ _ hfit horizon).2.1,
          (hlib _ _ _ hfit horizon).2.2,
          by rw [date_range_drop_one]; simp,
          by rw [date_range_drop_one, hlastd],
          by rw [date_range_drop_one]; exact chain'_dates _ _ _ hstep,
          by
            intro d hd
            rw [date_range_drop_one] at hd
            rw [hlastd]
            exact mem_dates_gt _ _ _ hstep d hd⟩

/-- Witness for C7 at a concrete one-row frame with horizon 2. -/
theorem C7_witness :
    c7pd.forecast.length = 2 ∧ c7pd.lower_bound.length = 2 ∧
    c7pd.upper_bound.length = 2 ∧ c7pd.dates.length = 2 ∧
    c7pd.dates = (List.range 2).map
      (fun (k : ℕ) => (([((0 : Int), (1 : ℚ))]).getLastD (0, 0)).1 +
        ((k : Int) + 1) * 1) ∧
    List.Chain' (· < ·) c7pd.dates ∧
    ∀ d ∈ c7pd.dates, (([((0 : Int), (1 : ℚ))]).getLastD (0, 0)).1 < d :=
  C7_horizon_contract constLibC7 (fun q => q) false (fun _ => none)
    [(0, 1)] 2 1 false (1, 1, 1) c7pd
    (fun data ord m hm steps => by
      cases hm
      refine ⟨?_, ?_, ?_⟩ <;> simp [constModelC7])
    (by decide) rfl

/-! ## Claim C9 -/

theorem shiftOne_cons_cons (x y : Int × ℚ) (ys : List (Int × ℚ)) :
    shiftOne (x :: y :: ys) = (y.1, x.2) :: shiftOne (y :: ys) := rfl

theorem zipWith_fst_snd (ys : List (Int × ℚ)) : ∀ x : Int × ℚ,
    (List.zipWith (fun cur prev => (cur.1, prev.2)) ys (x :: ys)).map Prod.fst =
      ys.map Prod.fst := by
  induction ys with
  | nil => intro x; rfl
  | cons y ys ih => intro x; simp only [List.zipWith, List.map_cons, ih y]

theorem shiftOne_map_fst (l : List (Int × ℚ)) :
    (shiftOne l).map Prod.fst = (l.map Prod.fst).drop 1 := by
  cases l with
  | nil => rfl
  | cons x xs => simpa [shiftOne] using zipWith_fst_snd xs x

theorem shiftOne_getD : ∀ (l : List (Int × ℚ)) (i : ℕ), i + 1 < l.length →
    (shiftOne l).getD i (0, 0) =
      ((l.getD (i + 1) (0, 0)).1, (l.getD i (0, 0)).2) := by
  intro l
  induction l with
  | nil => intro i hi; cases hi
  | cons x xs ih =>
    intro i hi
    cases xs with
    | nil => simp at hi
    | cons y ys =>
      rw [shiftOne_cons_cons]
      cases i with
      | zero => rfl
      | succ j =>
        have hj : j + 1 < (y :: ys).length := by
          simpa using Nat.lt_of_succ_lt_succ hi
        simpa using ih j hj

theorem map_fst_filter_key (q : Int → Bool) (l : List (Int × ℚ)) :
    (l.filter fun p => q p.1).map Prod.fst = (l.map Prod.fst).filter q := by
  induction l with
  | nil => rfl
  | cons x xs ih =>
    by_cases hq : q x.1
    · simp [List.filter_cons, hq, ih]
    · simp [List.filter_cons, hq, ih]

theorem exog_aligned_nonempty (df e : List (Int × ℚ))
    (hnd_df : (df.map Prod.fst).Nodup)
    (hoverlap : 10 ≤ ((df.map Prod.fst).filter fun t =>
      ((sort_index e).map Prod.fst).contains t).length) :
    df.filter (fun p => ((shiftOne (sort_index e)).map Prod.fst).contains p.1) ≠
      [] := by
  cases her : (sort_index e).map Prod.fst with
  | nil =>
    rw [her] at hoverlap
    simp at hoverlap
  | cons h tl =>
    rw [her] at hoverlap
    have hnodup : ((df.map Prod.fst).filter fun t =>
        (h :: tl).contains t).Nodup := hnd_df.filter _
    have hexists : ∃ t ∈ (df.map Prod.fst).filter fun t =>
        (h :: tl).contains t, t ≠ h := by
      by_contra hall
      push_neg at hall
      have hlen : ((df.map Prod.fst).filter fun t =>
          (h :: tl).contains t).length ≤ 1 := by
        cases hc : (df.map Prod.fst).filter fun t => (h :: tl).contains t with
        | nil => simp
        | cons a l =>
          cases l with
          | nil => simp
          | cons b m =>
            rw [hc] at hnodup hall
            have ha : a = h := hall a (List.mem_cons_self _ _)
            have hb : b = h :=
              hall b (List.mem_cons_of_mem _ (List.mem_cons_self _ _))
            have : a ∉ b :: m := (List.nodup_cons.mp hnodup).1
            exact absurd (ha.trans hb.symm ▸ List.mem_cons_self b m) this
      omega
    obtain ⟨t, htc, hth⟩ := hexists
    obtain ⟨htdf, hter⟩ := List.mem_filter.mp htc
    have hter' : t ∈ h :: tl := by simpa using hter
    have httl : t ∈ tl := by
      rcases List.mem_cons.mp hter' with rfl | h2
      · exact absurd rfl hth
      · exact h2
    obtain ⟨p, hpdf, hpt⟩ := List.mem_map.mp htdf
    intro hs2
    have hp2 : p ∈ df.filter
        (fun p => ((shiftOne (sort_index e)).map Prod.fst).contains p.1) := by
      refine List.mem_filter.mpr ⟨hpdf, ?_⟩
      rw [shiftOne_map_fst, her]
      simpa using hpt ▸ httl
    rw [hs2] at hp2
    cases hp2

/-- C9 counterexample: `probeSxLib` tags every fitted result with 1 when the
fit received exogenous data and 0 when it did not.  At `histC9` (12 rows)
with `exogC9` supplied (only 3 common timestamps), the forecast comes back
tagged 0: the exogenous data was not shifted or used at all — it was
discarded before fitting, contradicting the claim for this input. -/
theorem C9_counterexample :
    ((fit_sarimax probeSxLib histC9 (some exogC9) (1, 1, 1) (0, 1, 1, 12) 2
        false).map fun r => r.forecast) = some [0, 0] ∧
    some [(0 : ℚ), 0] ≠ some [(1 : ℚ), 1] :=
  ⟨rfl, by decide⟩

/-- C9 (amended): when exogenous series are supplied **and the target and
exogenous series share at least 10 common timestamps**, the preparation step
of `fit_sarimax` (through which the function passes `series2`/`exog_df` to
the SARIMAX fit and `future_exog` to `get_forecast`) yields: the exogenous
frame shifted forward one position (each kept row pairs timestamp `tᵢ` with
the exogenous value at `tᵢ₋₁`), inner-joined with the target on timestamp so
that rows lost to the shift are dropped from both sides symmetrically (both
keep exactly the same timestamps), and a future exogenous frame holding the
last known (unshifted) exogenous value constant for all forecast steps. -/
theorem C9_exog_alignment (df e : List (Int × ℚ)) (forecast_steps : ℕ)
    (freq : Int) (hne : e ≠ [])
    (hnd_df : (df.map Prod.fst).Nodup)
    (hnd_e : ((sort_index e).map Prod.fst).Nodup)
    (hoverlap : 10 ≤ ((df.map Prod.fst).filter fun t =>
      ((sort_index e).map Prod.fst).contains t).length) :
    (prepare_exog df (some e) forecast_steps freq =
      some (df.filter fun p =>
          ((shiftOne (sort_index e)).map Prod.fst).contains p.1,
        some ((shiftOne (sort_index e)).filter fun p =>
          (df.map Prod.fst).contains p.1),
        some ((date_range
          (((df.filter fun p =>
            ((shiftOne (sort_index e)).map Prod.fst).contains p.1).getLastD
              (0, 0)).1 + 1) forecast_steps freq).map
          fun t => (t, ((sort_index e).getLastD (0, 0)).2)))) ∧
    (∀ i, i + 1 < (sort_index e).length →
      (shiftOne (sort_index e)).getD i (0, 0) =
        (((sort_index e).getD (i + 1) (0, 0)).1,
          ((sort_index e).getD i (0, 0)).2)) ∧
    (∀ t : Int,
      t ∈ (df.filter fun p =>
        ((shiftOne (sort_index e)).map Prod.fst).contains p.1).map Prod.fst ↔
      t ∈ ((shiftOne (sort_index e)).filter fun p =>
        (df.map Prod.fst).contains p.1).map Prod.fst) := by
  refine ⟨?_, fun i hi => shiftOne_getD (sort_index e) i hi, ?_⟩
  · have he : e.isEmpty = false := by
      cases e with
      | nil => exact absurd rfl hne
      | cons a as => rfl
    have hs2 : df.filter
        (fun p => ((shiftOne (sort_index e)).map Prod.fst).contains p.1) ≠ [] :=
      exog_aligned_nonempty df e hnd_df hoverlap
    simp only [prepare_exog, he, Bool.false_eq_true, if_false]
    rw [if_neg (not_lt.mpr hoverlap)]
    cases hx : (df.filter fun p =>
        ((shiftOne (sort_index e)).map Prod.fst).contains p.1).getLast? with
    | none => exact absurd (List.getLast?_eq_none_iff.mp hx) hs2
    | some x =>
      have hgl : (df.filter fun p =>
          ((shiftOne (sort_index e)).map Prod.fst).contains p.1).getLastD
            (0, 0) = x := by
        rw [List.getLastD_eq_getLast?, hx]
        rfl
      rw [hgl]
  · intro t
    rw [map_fst_filter_key, map_fst_filter_key]
    simp only [List.mem_filter]
    constructor
    · rintro ⟨h1, h2⟩
      exact ⟨by simpa using h2, by simpa using h1⟩
    · rintro ⟨h1, h2⟩
      exact ⟨by simpa using h2, by simpa using h1⟩

/-- Witness for the amended C9 at twelve fully-overlapping rows. -/
theorem C9_witness :
    prepare_exog dfC9W (some eC9W) 2 1 =
      some (dfC9W.filter fun p =>
          ((shiftOne (sort_index eC9W)).map Prod.fst).contains p.1,
        some ((shiftOne (sort_index eC9W)).filter fun p =>
          (dfC9W.map Prod.fst).contains p.1),
        some ((date_range
          (((dfC9W.filter fun p =>
            ((shiftOne (sort_index eC9W)).map Prod.fst).contains p.1).getLastD
              (0, 0)).1 + 1) 2 1).map
          fun t => (t, ((sort_index eC9W).getLastD (0, 0)).2))) :=
  (C9_exog_alignment dfC9W eC9W 2 1 (by decide) (by decide) (by decide)
    (by decide)).1

end DMAC
